import Mathlib

set_option maxHeartbeats 1000000
set_option maxRecDepth 10000

/-!
Shallow embedding of the crop-advice backend core: the domain vocabulary,
normalizer, crop and disease matchers and the validation orchestrator from
src/utils/cropValidator.js, the crop-advice and batch route handlers from
src/routes/cropAdvice.js, and the advice-response parser from
LLMService.parseAdviceResponse.  All text handled here is ASCII, so the
JavaScript string primitives are modeled on ASCII semantics.
-/

/-- ASCII whitespace: the character class that the JS regex class \s and
String.prototype.trim use, restricted to ASCII inputs. -/
def wsChar (c : Char) : Bool :=
  c = ' ' || c = '\t' || c = '\n' || c = '\r' || c = '\x0b' || c = '\x0c'

def trimChars (l : List Char) : List Char :=
  ((l.dropWhile wsChar).reverse.dropWhile wsChar).reverse

/-- Model of JavaScript String.prototype.trim on ASCII text. -/
def jsTrim (s : String) : String := String.mk (trimChars s.toList)

/-- Model of JavaScript String.prototype.toLowerCase on ASCII text. -/
def jsToLower (s : String) : String := String.mk (s.toList.map Char.toLower)

/-- Case-sensitive test: the second list starts with the first one. -/
def startsList : List Char → List Char → Bool
  | [], _ => true
  | _ :: _, [] => false
  | p :: ps, c :: cs => p = c && startsList ps cs

/-- The second list contains the first as a contiguous run. -/
def occursList (needle : List Char) : List Char → Bool
  | [] => needle.isEmpty
  | c :: rest => startsList needle (c :: rest) || occursList needle rest

/-- Model of JavaScript a.includes(b): b occurs inside a. -/
def jsIncludes (a b : String) : Bool := occursList b.toList a.toList

/-- Model of JavaScript a.startsWith(b). -/
def jsStartsWith (a b : String) : Bool := startsList b.toList a.toList

/-- Model of JavaScript s.substring(0, n). -/
def jsTake (s : String) (n : Nat) : String := String.mk (s.toList.take n)

/-- The VALID_CROPS list from src/utils/cropValidator.js, in source order. -/
def VALID_CROPS : List String :=
  ["tomato", "potato", "pepper", "bell pepper", "chili", "cucumber",
   "eggplant", "brinjal", "cabbage", "cauliflower", "lettuce",
   "spinach", "carrot", "onion", "garlic", "pumpkin", "squash",
   "apple", "grape", "orange", "lemon", "strawberry", "blueberry",
   "raspberry", "peach", "cherry", "mango", "banana", "papaya",
   "corn", "maize", "wheat", "rice", "barley", "soybean", "soy",
   "cotton", "sugarcane", "tobacco", "tea", "coffee",
   "groundnut", "peanut", "sunflower", "mustard"]

/-- Apostrophe character, spelled via its code point so that it can be
embedded in disease names. -/
def apos : String := String.singleton (Char.ofNat 39)

/-- The CROP_DISEASES map from src/utils/cropValidator.js (a JS object used
as a string-keyed lookup). -/
def CROP_DISEASES : String → Option (List String)
  | "tomato" => some
      ["early blight", "late blight", "leaf mold", "septoria leaf spot",
       "bacterial spot", "target spot", "yellow leaf curl virus", "mosaic virus",
       "spider mites", "tomato yellow leaf curl disease", "fusarium wilt",
       "verticillium wilt", "powdery mildew", "anthracnose"]
  | "potato" => some
      ["early blight", "late blight", "common scab", "black scurf",
       "pink rot", "powdery scab", "verticillium wilt", "bacterial wilt",
       "potato virus y", "potato leaf roll virus", "blackleg"]
  | "pepper" => some
      ["bacterial spot", "cercospora leaf spot", "anthracnose",
       "phytophthora blight", "powdery mildew", "mosaic virus",
       "leaf curl", "blossom end rot", "tobacco mosaic virus"]
  | "bell pepper" => some
      ["bacterial spot", "cercospora leaf spot", "anthracnose",
       "phytophthora blight", "powdery mildew", "mosaic virus",
       "leaf curl", "blossom end rot"]
  | "apple" => some
      ["apple scab", "fire blight", "powdery mildew", "cedar apple rust",
       "black rot", "bitter rot", "brown rot", "flyspeck",
       "sooty blotch", "alternaria leaf blotch"]
  | "grape" => some
      ["powdery mildew", "downy mildew", "black rot", "anthracnose",
       "botrytis bunch rot", "esca", "pierce" ++ apos ++ "s disease", "crown gall",
       "eutypa dieback", "phomopsis cane and leaf spot"]
  | "corn" => some
      ["northern corn leaf blight", "southern corn leaf blight",
       "common rust", "southern rust", "gray leaf spot", "eyespot",
       "anthracnose", "stalk rot", "ear rot", "smut", "stewart" ++ apos ++ "s wilt",
       "northern leaf spot"]
  | "rice" => some
      ["blast", "brown spot", "bacterial leaf blight", "sheath blight",
       "tungro virus", "bacterial leaf streak", "stem rot",
       "false smut", "bakanae disease"]
  | "wheat" => some
      ["stripe rust", "leaf rust", "stem rust", "powdery mildew",
       "septoria tritici blotch", "tan spot", "fusarium head blight",
       "common bunt", "loose smut", "take-all"]
  | "cotton" => some
      ["bacterial blight", "verticillium wilt", "fusarium wilt",
       "anthracnose", "alternaria leaf spot", "powdery mildew",
       "root rot", "seedling disease", "boll rot"]
  | "soybean" => some
      ["frogeye leaf spot", "brown spot", "bacterial blight",
       "pod and stem blight", "anthracnose", "sudden death syndrome",
       "white mold", "downy mildew", "rust", "charcoal rot"]
  | "cucumber" => some
      ["anthracnose", "bacterial wilt", "downy mildew", "powdery mildew",
       "angular leaf spot", "belly rot", "gummy stem blight",
       "mosaic virus", "scab"]
  | _ => none

/-- The GENERIC_DISEASES list from src/utils/cropValidator.js. -/
def GENERIC_DISEASES : List String :=
  ["fungal infection", "bacterial infection", "viral infection",
   "root rot", "leaf spot", "blight", "wilt", "mildew",
   "rust", "scab", "canker", "rot", "anthracnose", "mosaic"]

/-- normalizeInput from cropValidator.js: toLowerCase then trim.  The JS
guard returning the empty string for non-string input is outside the modeled
domain, as every modeled call site passes a string. -/
def normalizeInput (input : String) : String := jsTrim (jsToLower input)

/-- The result object of validateCrop; a field the JS object lacks is none. -/
structure CropValidation where
  isValid : Bool
  suggestedCrop : Option String
  warning : Option String
  suggestions : Option (List String)
deriving DecidableEq

/-- The partial-match test used by validateCrop: substring in either
direction. -/
def cropRelated (n vc : String) : Bool := jsIncludes n vc || jsIncludes vc n

/-- validateCrop from src/utils/cropValidator.js. -/
def validateCrop (crop : String) : CropValidation :=
  let n := normalizeInput crop
  if VALID_CROPS.contains n then
    { isValid := true, suggestedCrop := some n, warning := none, suggestions := none }
  else
    match VALID_CROPS.find? (fun vc => cropRelated n vc) with
    | some pm =>
        { isValid := true, suggestedCrop := some pm,
          warning := some ("Interpreted \"" ++ crop ++ "\" as \"" ++ pm ++ "\""),
          suggestions := none }
    | none =>
        let cropStart := jsTake n 3
        let sugg := VALID_CROPS.filter
          (fun vc => jsStartsWith vc cropStart && decide (3 ≤ cropStart.length))
        { isValid := false, suggestedCrop := none, warning := none,
          suggestions := if sugg.length > 0 then some sugg else none }

/-- The result object of validateDisease; a field the JS object lacks is
none. -/
structure DiseaseValidation where
  isValid : Bool
  message : Option String
  suggestedDisease : Option String
  warning : Option String
  suggestions : Option (List String)
deriving DecidableEq

/-- The partial-match test used by validateDisease: substring in either
direction. -/
def diseaseRelated (nd vd : String) : Bool := jsIncludes nd vd || jsIncludes vd nd

def genericWarningText : String :=
  "This is a generic disease term. More specific information would help provide better advice."

/-- validateDisease from src/utils/cropValidator.js. -/
def validateDisease (crop disease : String) : DiseaseValidation :=
  let nc := normalizeInput crop
  let nd := normalizeInput disease
  match CROP_DISEASES nc with
  | some cropSpecific =>
    if cropSpecific.contains nd then
      { isValid := true, message := none, suggestedDisease := none,
        warning := none, suggestions := none }
    else
      match cropSpecific.find? (fun vd => diseaseRelated nd vd) with
      | some pm =>
          { isValid := true,
            message := some ("Interpreted \"" ++ disease ++ "\" as \"" ++ pm ++ "\""),
            suggestedDisease := some pm, warning := none, suggestions := none }
      | none =>
        match GENERIC_DISEASES.find? (fun g => diseaseRelated nd g) with
        | some _ =>
            { isValid := true,
              message := some ("Accepted generic disease: \"" ++ disease ++ "\""),
              suggestedDisease := none, warning := some genericWarningText,
              suggestions := none }
        | none =>
          let diseaseStart := jsTake nd 4
          let sugg := cropSpecific.filter
            (fun vd => jsIncludes vd diseaseStart && decide (4 ≤ diseaseStart.length))
          { isValid := false,
            message := some ("\"" ++ disease ++ "\" is not a recognized disease for " ++ crop),
            suggestedDisease := none, warning := none,
            suggestions := some (if sugg.length > 0 then sugg else cropSpecific.take 5) }
  | none =>
    match GENERIC_DISEASES.find? (fun g => diseaseRelated nd g) with
    | some _ =>
        { isValid := true, message := none, suggestedDisease := none,
          warning := some genericWarningText, suggestions := none }
    | none =>
        { isValid := false,
          message := some ("\"" ++ disease ++ "\" is not a recognized disease"),
          suggestedDisease := none, warning := none,
          suggestions := some (GENERIC_DISEASES.take 5) }

/-- The three return shapes of validateCropAndDisease, one constructor per
shape; a field the corresponding JS object lacks is simply absent from the
constructor. -/
inductive ValidationOutcome where
  | cropFailure (error message : String) (suggestions : Option (List String))
      (validCrops : List String)
  | diseaseFailure (error : String) (message : Option String)
      (suggestions : Option (List String)) (crop : String)
  | success (crop disease : String) (warnings : List String)
deriving DecidableEq

/-- validateCropAndDisease from src/utils/cropValidator.js.  When the crop
stage is valid its suggestedCrop field is always populated; getD resolves
the Option exactly as the JS reads the field.  The warnings filter models
the JS filter(Boolean), which drops both absent values and empty strings. -/
def validateCropAndDisease (crop disease : String) : ValidationOutcome :=
  let cv := validateCrop crop
  if !cv.isValid then
    ValidationOutcome.cropFailure ("Invalid crop name: \"" ++ crop ++ "\"")
      "Please provide a valid crop name." cv.suggestions (VALID_CROPS.take 20)
  else
    let validatedCrop := cv.suggestedCrop.getD ""
    let dv := validateDisease validatedCrop disease
    if !dv.isValid then
      ValidationOutcome.diseaseFailure
        ("Invalid disease for " ++ validatedCrop ++ ": \"" ++ disease ++ "\"")
        dv.message dv.suggestions validatedCrop
    else
      ValidationOutcome.success validatedCrop (dv.suggestedDisease.getD disease)
        ((([cv.warning, dv.warning]).filterMap id).filter (fun s => s != ""))

/-- JavaScript truthiness test for an optional string: undefined and the
empty string are falsy. -/
def falsyStr : Option String → Bool
  | none => true
  | some s => s == ""

/-- JavaScript v OR-ELSE dflt for an optional string (falsy selects the
default). -/
def jsOrStr (v : Option String) (dflt : String) : String :=
  match v with
  | none => dflt
  | some s => if s == "" then dflt else s

/-- JavaScript v OR-ELSE 0.0 for an optional number (undefined and 0 are
falsy; both give 0). -/
def jsOrZero (v : Option ℚ) : ℚ :=
  match v with
  | none => 0
  | some q => if q == 0 then 0 else q

/-- The confidence range test from the POST /crop-advice handler:
the check runs only when confidence is provided. -/
def confOutOfRange : Option ℚ → Bool
  | none => false
  | some q => decide (q < 0) || decide (q > 1)

/-- The possible responses of the POST /crop-advice handler. -/
inductive HandlerResult where
  | missingFields
  | validationError (v : ValidationOutcome)
  | confidenceError
  | adviceOk (crop disease severity : String) (confidence : ℚ) (language : String)
      (warnings : List String)
deriving DecidableEq

/-- Execution trace of one POST /crop-advice request: the response, whether
validateCropAndDisease ran, and whether llmService.generateCropAdvice (the
AI-collaborator entry point) was invoked. -/
structure HandlerTrace where
  result : HandlerResult
  matchingRan : Bool
  adviceCalled : Bool
deriving DecidableEq

/-- The POST /crop-advice handler from src/routes/cropAdvice.js, with the
external advice call left abstract: adviceOk carries exactly the arguments
the handler passes to generateCropAdvice.  Source order: missing-field
check, then validateCropAndDisease, then the confidence range check, then
the collaborator call. -/
def postCropAdvice (crop disease : Option String) (confidence : Option ℚ)
    (severity language : Option String) : HandlerTrace :=
  if falsyStr crop || falsyStr disease then
    { result := HandlerResult.missingFields, matchingRan := false, adviceCalled := false }
  else
    match validateCropAndDisease (crop.getD "") (disease.getD "") with
    | ValidationOutcome.success vc vd w =>
        if confOutOfRange confidence then
          { result := HandlerResult.confidenceError, matchingRan := true, adviceCalled := false }
        else
          { result := HandlerResult.adviceOk vc vd (jsOrStr severity "unknown")
              (jsOrZero confidence) (jsOrStr language "en") w,
            matchingRan := true, adviceCalled := true }
    | v =>
        { result := HandlerResult.validationError v, matchingRan := true, adviceCalled := false }

/-- One element of the diseases array accepted by POST /crop-advice/batch. -/
structure BatchEntry where
  crop : Option String
  disease : Option String
  severity : Option String
  confidence : Option ℚ
deriving DecidableEq

/-- One validated tuple as stored by the batch handler before the AI call. -/
structure ValidatedEntry where
  crop : String
  disease : String
  severity : String
  confidence : ℚ
  warnings : List String
deriving DecidableEq

/-- The possible responses of the POST /crop-advice/batch handler.  On ok,
the carried list is exactly the argument later passed to
generateBatchAdvice, which issues one generateCropAdvice call per element;
in every other case the handler returns before any AI call. -/
inductive BatchResult where
  | badArray
  | missingFields (index : Nat) (error : String)
  | invalidEntry (index : Nat) (v : ValidationOutcome)
  | ok (validated : List ValidatedEntry)
deriving DecidableEq

/-- The validation loop of the batch handler, carrying the running index. -/
def batchLoop : Nat → List BatchEntry → BatchResult
  | _, [] => BatchResult.ok []
  | i, e :: rest =>
    if falsyStr e.crop || falsyStr e.disease then
      BatchResult.missingFields i
        ("Entry " ++ toString (i + 1) ++ ": Missing crop or disease fields")
    else
      match validateCropAndDisease (e.crop.getD "") (e.disease.getD "") with
      | ValidationOutcome.success c d w =>
          match batchLoop (i + 1) rest with
          | BatchResult.ok tail =>
              BatchResult.ok
                ({ crop := c, disease := d, severity := jsOrStr e.severity "unknown",
                   confidence := jsOrZero e.confidence, warnings := w } :: tail)
          | other => other
      | v => BatchResult.invalidEntry i v

/-- The POST /crop-advice/batch handler from src/routes/cropAdvice.js. -/
def postBatchAdvice (diseases : Option (List BatchEntry)) : BatchResult :=
  match diseases with
  | none => BatchResult.badArray
  | some [] => BatchResult.badArray
  | some l => batchLoop 0 l

/-- The AI-collaborator invocations a batch request produces: one
generateCropAdvice call per validated entry on success, none otherwise. -/
def batchAdviceCalls (r : BatchResult) : List ValidatedEntry :=
  match r with
  | BatchResult.ok l => l
  | _ => []

/-- The zero-based index field carried by a batch error response. -/
def batchErrorIndex (r : BatchResult) : Option Nat :=
  match r with
  | BatchResult.missingFields i _ => some i
  | BatchResult.invalidEntry i _ => some i
  | _ => none

/-- The invalid-tuple test matching the batch loop: missing fields or a
failed validateCropAndDisease. -/
def entryBad (e : BatchEntry) : Bool :=
  falsyStr e.crop || falsyStr e.disease ||
    (match validateCropAndDisease (e.crop.getD "") (e.disease.getD "") with
     | ValidationOutcome.success _ _ _ => false
     | _ => true)

/-- Case-insensitive version of startsList, modeling the i flag of the
section regexes. -/
def ciStarts : List Char → List Char → Bool
  | [], _ => true
  | _ :: _, [] => false
  | p :: ps, c :: cs => p.toLower = c.toLower && ciStarts ps cs

/-- The next-label alternative of the lookahead; none for the last section,
whose regex lookahead has no label alternative. -/
def boundaryLabel (next : Option (List Char)) (t : List Char) : Bool :=
  match next with
  | some n => ciStarts n t
  | none => false

/-- The lookahead of a section regex at a given suffix: a blank line, the
next section label (case-insensitive), or end of input. -/
def boundaryAt (next : Option (List Char)) (t : List Char) : Bool :=
  t.take 2 = ['\n', '\n'] || boundaryLabel next t || t.isEmpty

/-- The lazy one-or-more capture of the section regexes: the shortest
nonempty run after which the lookahead holds.  dotall is in force, so any
character can be captured.  Total; returns the empty list only on empty
input, where the regex capture cannot succeed. -/
def lazyCap (next : Option (List Char)) : List Char → List Char
  | [] => []
  | c :: rest => if boundaryAt next rest then [c] else c :: lazyCap next rest

/-- Behavior of the regex directly after a matched label: the greedy
whitespace run is consumed first; if nothing but whitespace remains the
engine backtracks by one character so that the capture takes the final
whitespace character, and with nothing at all after the label the match at
this position fails. -/
def capAfterLabel (next : Option (List Char)) (u : List Char) : Option (List Char) :=
  match u.dropWhile wsChar with
  | [] =>
      match u.getLast? with
      | none => none
      | some c => some [c]
  | v => some (lazyCap next v)

/-- Leftmost-match scan of text.match for a section regex: at each start
position try the label case-insensitively, then the capture; on failure move
one character forward. -/
def scanSection (label : List Char) (next : Option (List Char)) : List Char → Option (List Char)
  | [] => none
  | c :: rest =>
      if ciStarts label (c :: rest) then
        match capAfterLabel next ((c :: rest).drop label.length) with
        | some cap => some cap
        | none => scanSection label next rest
      else scanSection label next rest

/-- One field extraction of LLMService.parseAdviceResponse: the capture of
the section regex, trimmed, or none when the regex does not match. -/
def extractSection (label : String) (next : Option String) (text : String) : Option String :=
  (scanSection label.toList (next.map String.toList) text.toList).map
    (fun cs => String.mk (trimChars cs))

/-- The six-field advice object produced by parseAdviceResponse. -/
structure AdviceFields where
  cause : String
  symptoms : String
  immediate : String
  chemical : String
  organic : String
  prevention : String
deriving DecidableEq

/-- parseAdviceResponse from the LLM service: six section extractions with
fixed per-field default substitution.  The JS try/catch around the
extraction is dead code as none of the string primitives used can throw, so
the function is total. -/
def parseAdviceResponse (text : String) : AdviceFields :=
  { cause := (extractSection "CAUSE:" (some "SYMPTOMS:") text).getD "Unable to determine cause"
  , symptoms := (extractSection "SYMPTOMS:" (some "IMMEDIATE:") text).getD "Unable to determine symptoms"
  , immediate := (extractSection "IMMEDIATE:" (some "CHEMICAL:") text).getD "Consult agricultural expert"
  , chemical := (extractSection "CHEMICAL:" (some "ORGANIC:") text).getD "Consult local agriculture office"
  , organic := (extractSection "ORGANIC:" (some "PREVENTION:") text).getD "Neem oil spray recommended"
  , prevention := (extractSection "PREVENTION:" none text).getD "Maintain proper plant hygiene" }

/-- The record of the six per-field defaults, for stating the parsing
claims. -/
def defaultAdvice : AdviceFields :=
  { cause := "Unable to determine cause"
  , symptoms := "Unable to determine symptoms"
  , immediate := "Consult agricultural expert"
  , chemical := "Consult local agriculture office"
  , organic := "Neem oil spray recommended"
  , prevention := "Maintain proper plant hygiene" }

/-- Case-insensitive occurrence of a label anywhere in the text. -/
def occursCI (needle : List Char) : List Char → Bool
  | [] => needle.isEmpty
  | c :: rest => ciStarts needle (c :: rest) || occursCI needle rest

/-- String-level wrapper of occursCI. -/
def labelOccursCI (label text : String) : Bool := occursCI label.toList text.toList

/-- Modelled from the claim wording of C6: the run of text beginning right
after the first case-insensitive occurrence of the label, up to the first of
a blank line, the next section label, or end of text. -/
def claimRun (next : Option (List Char)) : List Char → List Char
  | [] => []
  | c :: rest => if boundaryAt next (c :: rest) then [] else c :: claimRun next rest

/-- Modelled from the claim wording of C6: scan for the first
case-insensitive occurrence of the label and take the run after it. -/
def claimScan (label : List Char) (next : Option (List Char)) : List Char → Option (List Char)
  | [] => none
  | c :: rest =>
      if ciStarts label (c :: rest) then
        some (claimRun next ((c :: rest).drop label.length))
      else claimScan label next rest

/-- Modelled from the claim wording of C6: the claimed extraction, trimmed
of surrounding whitespace. -/
def claimExtract (label : String) (next : Option String) (text : String) : Option String :=
  (claimScan label.toList (next.map String.toList) text.toList).map
    (fun cs => String.mk (trimChars cs))

/-- No two consecutive newline characters. -/
def noDoubleNl : List Char → Bool
  | [] => true
  | [_] => true
  | a :: b :: rest => !(a = '\n' && b = '\n') && noDoubleNl (b :: rest)

/-- Local well-behavedness of the text directly after a matched label: the
whitespace the greedy run swallows contains no blank line, some non-blank
body follows, and the body does not itself begin with the next label.
Under this condition the regex capture agrees with the claimed run. -/
def okAfter (next : Option (List Char)) (u : List Char) : Bool :=
  noDoubleNl (u.takeWhile wsChar) && !(u.dropWhile wsChar).isEmpty &&
    !boundaryLabel next (u.dropWhile wsChar)

/-- The guard of the amended C6, checked at the first occurrence of the
label; an absent label is allowed since then neither side extracts. -/
def guardScan (label : List Char) (next : Option (List Char)) : List Char → Bool
  | [] => true
  | c :: rest =>
      if ciStarts label (c :: rest) then okAfter next ((c :: rest).drop label.length)
      else guardScan label next rest

/-- String-level wrapper of guardScan. -/
def sectionGuard (label : String) (next : Option String) (text : String) : Bool :=
  guardScan label.toList (next.map String.toList) text.toList

/-- The next label starts with a non-whitespace character (after
lowercasing); holds for all six section labels. -/
def nextOk : Option (List Char) → Bool
  | some (h :: _) => !wsChar h.toLower
  | _ => true
theorem lazyCap_cons (next : Option (List Char)) :
    ∀ (rest : List Char) (c : Char), lazyCap next (c :: rest) = c :: claimRun next rest
  | [], c => by
      show (if boundaryAt next [] = true then [c] else c :: lazyCap next [])
        = c :: claimRun next []
      simp [boundaryAt, claimRun]
  | d :: t, c => by
      have ih := lazyCap_cons next t d
      show (if boundaryAt next (d :: t) = true then [c] else c :: lazyCap next (d :: t))
        = c :: (if boundaryAt next (d :: t) = true then [] else d :: claimRun next t)
      cases hb : boundaryAt next (d :: t) with
      | true => simp
      | false => simp [ih]

theorem toLower_eq_of_ws {c : Char} (h : wsChar c = true) : c.toLower = c := by
  simp only [wsChar, Bool.or_eq_true, decide_eq_true_eq] at h
  rcases h with ((((h | h) | h) | h) | h) | h <;> subst h <;> decide

theorem noDoubleNl_tail {a : Char} {l : List Char} (h : noDoubleNl (a :: l) = true) :
    noDoubleNl l = true := by
  cases l with
  | nil => rfl
  | cons b t => simp [noDoubleNl] at h; simp [h.2]

theorem ciStarts_ws_false {n : List Char} {c : Char} {rest : List Char}
    (hc : wsChar c = true) (hn : nextOk (some n) = true) (hnil : n ≠ []) :
    ciStarts n (c :: rest) = false := by
  cases n with
  | nil => exact absurd rfl hnil
  | cons h t =>
      have hlow : wsChar h.toLower = false := by simpa [nextOk] using hn
      have hne : ¬(h.toLower = c.toLower) := by
        rw [toLower_eq_of_ws hc]
        intro hh
        rw [hh, hc] at hlow
        simp at hlow
      show (decide (h.toLower = c.toLower) && ciStarts t rest) = false
      simp [hne]

theorem boundaryAt_ws_false {next : Option (List Char)} (hn : nextOk next = true)
    {c : Char} (hc : wsChar c = true) {rest : List Char}
    (hnl : c = '\n' → rest.take 1 ≠ ['\n'])
    (hb : boundaryLabel next (rest.dropWhile wsChar) = false) :
    boundaryAt next (c :: rest) = false := by
  have h2 : boundaryLabel next (c :: rest) = false := by
    cases next with
    | none => rfl
    | some n =>
        cases hn2 : n with
        | nil =>
            exfalso
            rw [hn2] at hb
            simp [boundaryLabel, ciStarts] at hb
        | cons h t =>
            show ciStarts (h :: t) (c :: rest) = false
            exact ciStarts_ws_false hc (hn2 ▸ hn) (by simp)
  simp [boundaryAt, h2]
  exact hnl

theorem claimRun_ws_split {next : Option (List Char)} (hn : nextOk next = true) :
    ∀ u : List Char, noDoubleNl (u.takeWhile wsChar) = true →
      u.dropWhile wsChar ≠ [] →
      boundaryLabel next (u.dropWhile wsChar) = false →
      claimRun next u = u.takeWhile wsChar ++ claimRun next (u.dropWhile wsChar)
  | [] => by intro _ h2 _; simp at h2
  | c :: rest => by
      intro h1 h2 h3
      cases hc : wsChar c with
      | false => simp [List.takeWhile_cons, List.dropWhile_cons, hc]
      | true =>
          have htw : (c :: rest).takeWhile wsChar = c :: rest.takeWhile wsChar := by
            simp [List.takeWhile_cons, hc]
          have hdw : (c :: rest).dropWhile wsChar = rest.dropWhile wsChar := by
            simp [List.dropWhile_cons, hc]
          rw [htw] at h1
          rw [hdw] at h2 h3
          have hnl : c = '\n' → rest.take 1 ≠ ['\n'] := by
            intro hcn habs
            cases hr : rest with
            | nil => rw [hr] at habs; simp at habs
            | cons d t =>
                rw [hr] at habs
                have hd1 : d = '\n' := by
                  have hss : List.take 1 (d :: t) = [d] := rfl
                  rw [hss] at habs
                  injection habs
                have hdws : wsChar d = true := by rw [hd1]; decide
                rw [hr] at h1
                have htw2 : (d :: t).takeWhile wsChar = d :: t.takeWhile wsChar := by
                  simp [List.takeWhile_cons, hdws]
                rw [htw2, hcn, hd1] at h1
                simp [noDoubleNl] at h1
          have hba := boundaryAt_ws_false hn hc hnl h3
          rw [claimRun, hba, htw, hdw]
          simp only [Bool.false_eq_true, if_false, List.cons_append]
          congr 1
          exact claimRun_ws_split hn rest (noDoubleNl_tail h1) h2 h3

theorem dropWhile_ws_append {w x : List Char} (hw : ∀ c ∈ w, wsChar c = true) :
    (w ++ x).dropWhile wsChar = x.dropWhile wsChar := by
  induction w with
  | nil => rfl
  | cons a t ih =>
      have ha : wsChar a = true := hw a (by simp)
      simp only [List.cons_append, List.dropWhile_cons, ha, if_true]
      exact ih (fun c hc => hw c (by simp [hc]))

theorem trimChars_ws_append {w x : List Char} (hw : ∀ c ∈ w, wsChar c = true) :
    trimChars (w ++ x) = trimChars x := by
  simp only [trimChars, dropWhile_ws_append hw]

theorem dropWhile_head_false {p : Char → Bool} :
    ∀ (l : List Char) (c : Char) (cs : List Char), l.dropWhile p = c :: cs → p c = false
  | [], c, cs, h => by simp at h
  | a :: t, c, cs, h => by
      rw [List.dropWhile_cons] at h
      cases ha : p a with
      | true =>
          rw [ha] at h
          simp only [if_true] at h
          exact dropWhile_head_false t c cs h
      | false =>
          rw [ha] at h
          simp only [Bool.false_eq_true, if_false] at h
          injection h with h1 _
          rw [← h1]
          exact ha

theorem claimRun_eq_lazyCap {next : Option (List Char)} {c : Char} {rest : List Char}
    (hc : wsChar c = false) (hb : boundaryLabel next (c :: rest) = false) :
    claimRun next (c :: rest) = lazyCap next (c :: rest) := by
  have hba : boundaryAt next (c :: rest) = false := by
    simp [boundaryAt, hb]
    intro h5
    rw [h5] at hc
    simp [wsChar] at hc
  rw [claimRun, hba, lazyCap_cons]
  simp

theorem scan_eq_claim {label : List Char} {next : Option (List Char)}
    (hn : nextOk next = true) :
    ∀ s : List Char, guardScan label next s = true →
      (scanSection label next s).map trimChars = (claimScan label next s).map trimChars
  | [] => by intro _; rfl
  | c :: rest => by
      intro hg
      rw [guardScan] at hg
      rw [scanSection, claimScan]
      cases hm : ciStarts label (c :: rest) with
      | false =>
          rw [hm] at hg
          simp only [Bool.false_eq_true, if_false] at hg ⊢
          exact scan_eq_claim hn rest hg
      | true =>
          rw [hm] at hg
          simp only [if_true] at hg ⊢
          rw [okAfter] at hg
          simp only [Bool.and_eq_true] at hg
          obtain ⟨⟨h1, h2⟩, h3⟩ := hg
          rw [Bool.not_eq_true'] at h2 h3
          have h2x : ((c :: rest).drop label.length).dropWhile wsChar ≠ [] := by
            intro hx
            rw [hx] at h2
            simp at h2
          cases hv : ((c :: rest).drop label.length).dropWhile wsChar with
          | nil => exact absurd hv h2x
          | cons d ds =>
              have hcap : capAfterLabel next ((c :: rest).drop label.length)
                  = some (lazyCap next (d :: ds)) := by
                rw [capAfterLabel, hv]
              have hd : wsChar d = false := dropWhile_head_false _ _ _ hv
              have hb3 : boundaryLabel next (d :: ds) = false := hv ▸ h3
              have hsplit := claimRun_ws_split hn ((c :: rest).drop label.length) h1 h2x h3
              have hw : ∀ x ∈ ((c :: rest).drop label.length).takeWhile wsChar,
                  wsChar x = true := fun x hx => List.mem_takeWhile_imp hx
              have hgoal : trimChars (lazyCap next (d :: ds))
                  = trimChars (claimRun next ((c :: rest).drop label.length)) := by
                rw [hsplit, hv, claimRun_eq_lazyCap hd hb3, trimChars_ws_append hw]
              rw [hcap]
              exact congrArg some hgoal

theorem extractSection_eq_claimExtract {label : String} {next : Option String}
    (hn : nextOk (next.map String.toList) = true) (text : String)
    (hg : sectionGuard label next text = true) :
    extractSection label next text = claimExtract label next text := by
  have h := scan_eq_claim hn text.toList hg
  simp only [extractSection, claimExtract]
  have h2 := congrArg (Option.map String.mk) h
  simpa [Option.map_map, Function.comp] using h2

theorem occursCI_false_scan {label : List Char} {next : Option (List Char)} :
    ∀ {s : List Char}, occursCI label s = false → scanSection label next s = none := by
  intro s
  induction s with
  | nil => intro _; rfl
  | cons c rest ih =>
      intro h
      rw [occursCI] at h
      simp only [Bool.or_eq_false_iff] at h
      rw [scanSection, h.1]
      simp only [Bool.false_eq_true, if_false]
      exact ih h.2

theorem find?_split {α : Type} (p : α → Bool) :
    ∀ (l : List α) (m : α), l.find? p = some m →
      ∃ l₁ l₂, l = l₁ ++ m :: l₂ ∧ ∀ x ∈ l₁, p x = false
  | [], m, h => by simp at h
  | a :: t, m, h => by
      rw [List.find?_cons] at h
      cases ha : p a with
      | true =>
          rw [ha] at h
          simp at h
          exact ⟨[], t, by simp [h], by simp⟩
      | false =>
          rw [ha] at h
          simp only at h
          obtain ⟨l₁, l₂, hl, hp⟩ := find?_split p t m h
          refine ⟨a :: l₁, l₂, by simp [hl], ?_⟩
          intro x hx
          rcases List.mem_cons.mp hx with hx | hx
          · rw [hx]; exact ha
          · exact hp x hx

theorem find?_of_any {α : Type} (p : α → Bool) :
    ∀ (l : List α), (∃ x ∈ l, p x = true) → ∃ m, l.find? p = some m
  | [], h => by simp at h
  | a :: t, h => by
      rw [List.find?_cons]
      cases ha : p a with
      | true => exact ⟨a, rfl⟩
      | false =>
          obtain ⟨x, hx, hpx⟩ := h
          rcases List.mem_cons.mp hx with hx1 | hx1
          · rw [hx1] at hpx; rw [hpx] at ha; cases ha
          · exact find?_of_any p t ⟨x, hx1, hpx⟩

theorem validateCrop_valid_suggested {crop : String} {r : CropValidation}
    (h : validateCrop crop = r) (hv : r.isValid = true) :
    ∃ c, r.suggestedCrop = some c := by
  rw [validateCrop] at h
  split at h
  · exact ⟨normalizeInput crop, by rw [← h]⟩
  · split at h
    · rename_i pm hf
      exact ⟨pm, by rw [← h]⟩
    · rw [← h] at hv
      simp at hv

theorem suggestedDisease_mem {crop disease m : String}
    (h : (validateDisease crop disease).suggestedDisease = some m) :
    ∃ lst, CROP_DISEASES (normalizeInput crop) = some lst ∧ m ∈ lst := by
  rw [validateDisease] at h
  split at h
  · rename_i cropSpecific heq
    split at h
    · simp at h
    · split at h
      · rename_i pm hf
        simp at h
        exact ⟨cropSpecific, heq, h ▸ List.mem_of_find?_eq_some hf⟩
      · split at h
        · simp at h
        · simp at h
  · split at h
    · simp at h
    · simp at h

theorem validate_success_inv {crop disease c d : String} {w : List String}
    (h : validateCropAndDisease crop disease = ValidationOutcome.success c d w) :
    (validateCrop crop).isValid = true ∧
    (validateCrop crop).suggestedCrop = some c ∧
    (validateDisease c disease).isValid = true ∧
    d = ((validateDisease c disease).suggestedDisease).getD disease ∧
    w = (([(validateCrop crop).warning, (validateDisease c disease).warning]).filterMap id).filter
          (fun s => s != "") := by
  rw [validateCropAndDisease] at h
  split at h
  · simp at h
  · rename_i hvalid
    have hcv : (validateCrop crop).isValid = true := by simpa using hvalid
    obtain ⟨cv, hcv2⟩ := validateCrop_valid_suggested rfl hcv
    rw [hcv2] at h
    simp only [Option.getD_some] at h
    split at h
    · simp at h
    · rename_i hdv
      injection h with h1 h2 h3
      subst h1
      refine ⟨hcv, hcv2, by simpa using hdv, h2.symm, h3.symm⟩

theorem validateCrop_fuzzy_warning {crop : String} {r : CropValidation}
    (h : validateCrop crop = r)
    (hc : VALID_CROPS.contains (normalizeInput crop) = false)
    {c : String} (hs : r.suggestedCrop = some c) :
    r.warning = some ("Interpreted \"" ++ crop ++ "\" as \"" ++ c ++ "\"") := by
  rw [validateCrop] at h
  split at h
  · rename_i hct
    rw [hct] at hc
    cases hc
  · split at h
    · rename_i pm hf
      rw [← h] at hs ⊢
      simp only at hs ⊢
      simp at hs
      rw [hs]
    · rw [← h] at hs
      simp at hs

/-- C1, corrected reading: the success result resolves its disease to the
matcher suggestedDisease only when one is produced (the crop-specific
partial-match branch, whose value is a canonical entry of the resolved crop
disease list); in the exact-match and generic branches no suggestedDisease
is produced and the raw disease string is returned verbatim.  In particular
validating crop tomato with disease Early Blight returns the raw string
Early Blight, not the lowercase canonical entry. -/
theorem c1_claim :
    (∀ crop disease c d : String, ∀ w : List String,
      validateCropAndDisease crop disease = ValidationOutcome.success c d w →
      (∀ m, (validateDisease c disease).suggestedDisease = some m →
          d = m ∧ ∃ lst, CROP_DISEASES (normalizeInput c) = some lst ∧ m ∈ lst) ∧
      ((validateDisease c disease).suggestedDisease = none → d = disease)) ∧
    validateCropAndDisease "tomato" "Early Blight" =
      ValidationOutcome.success "tomato" "Early Blight" [] := by
  constructor
  · intro crop disease c d w h
    obtain ⟨_, _, _, hd, _⟩ := validate_success_inv h
    constructor
    · intro m hm
      refine ⟨?_, suggestedDisease_mem hm⟩
      rw [hd, hm]
      rfl
    · intro hm
      rw [hd, hm]
      rfl
  · decide

/-- Witness for C1: a crop-specific partial disease match, where the
resolved disease is the canonical vocabulary entry. -/
theorem c1_witness :
    "late blight" = "late blight" ∧
      ∃ lst, CROP_DISEASES (normalizeInput "tomato") = some lst ∧ "late blight" ∈ lst :=
  (c1_claim.1 "tomato" "late blight disease" "tomato" "late blight" [] (by decide)).1
    "late blight" (by decide)

/-- Counterexample to C1 as stated: for crop tomato and disease
Early Blight the validation succeeds, but the returned disease is the raw
input Early Blight verbatim, not the canonical matched entry early blight
that the claim requires. -/
theorem c1_counterexample :
    validateCropAndDisease "tomato" "Early Blight" =
      ValidationOutcome.success "tomato" "Early Blight" [] ∧
    ("Early Blight" : String) ≠ "early blight" := ⟨by decide, by decide⟩

theorem validateCrop_exact {crop : String}
    (hc : VALID_CROPS.contains (normalizeInput crop) = true) :
    validateCrop crop =
      { isValid := true, suggestedCrop := some (normalizeInput crop),
        warning := none, suggestions := none } := by
  rw [validateCrop, if_pos hc]

theorem validateDisease_warning_cases {crop disease : String} {r : DiseaseValidation}
    (h : validateDisease crop disease = r) :
    r.warning = none ∨ r.warning = some genericWarningText := by
  rw [validateDisease] at h
  split at h
  · rename_i cropSpecific heq
    split at h
    · exact Or.inl (by rw [← h])
    · split at h
      · exact Or.inl (by rw [← h])
      · split at h
        · exact Or.inr (by rw [← h])
        · exact Or.inl (by rw [← h])
  · split at h
    · exact Or.inr (by rw [← h])
    · exact Or.inl (by rw [← h])

theorem suggestedDisease_warning_none {crop disease : String} {r : DiseaseValidation}
    (h : validateDisease crop disease = r) {m : String}
    (hs : r.suggestedDisease = some m) :
    r.warning = none := by
  rw [validateDisease] at h
  split at h
  · rename_i cropSpecific heq
    split at h
    · rw [← h] at hs; simp at hs
    · split at h
      · rw [← h]
      · split at h
        · rw [← h] at hs; simp at hs
        · rw [← h] at hs; simp at hs
  · split at h
    · rw [← h] at hs; simp at hs
    · rw [← h] at hs; simp at hs

/-- C2, corrected reading: the success warnings array records the crop-stage
fuzzy interpretation (whenever the crop was accepted non-exactly, its
Interpreted-as warning is present in the warnings); a fuzzy disease
interpretation is never placed in the warnings array: every warnings entry
is either the crop-stage warning or the fixed generic advisory text, and a
success whose crop matched exactly and whose disease was accepted by the
non-exact partial rule has an empty warnings array, the interpretation
surfacing only through the resolved disease value and the matcher message
field. -/
theorem c2_claim :
    (∀ crop disease c d : String, ∀ w : List String,
      validateCropAndDisease crop disease = ValidationOutcome.success c d w →
      VALID_CROPS.contains (normalizeInput crop) = false →
      ("Interpreted \"" ++ crop ++ "\" as \"" ++ c ++ "\"") ∈ w) ∧
    (∀ crop disease c d : String, ∀ w : List String,
      validateCropAndDisease crop disease = ValidationOutcome.success c d w →
      ∀ x ∈ w, (validateCrop crop).warning = some x ∨ x = genericWarningText) ∧
    (∀ crop disease c d : String, ∀ w : List String, ∀ m : String,
      validateCropAndDisease crop disease = ValidationOutcome.success c d w →
      VALID_CROPS.contains (normalizeInput crop) = true →
      (validateDisease c disease).suggestedDisease = some m →
      w = []) ∧
    validateCropAndDisease "tomato" "early blight disease" =
      ValidationOutcome.success "tomato" "early blight" [] := by
  refine ⟨?_, ?_, ?_, by decide⟩
  · intro crop disease c d w h hcontains
    obtain ⟨hcv, hsc, _, _, hw⟩ := validate_success_inv h
    have hwarn := validateCrop_fuzzy_warning rfl hcontains hsc
    have hne : ("Interpreted \"" ++ crop ++ "\" as \"" ++ c ++ "\"") ≠ "" := by
      intro heq
      have hlen := congrArg String.length heq
      rw [String.length_append, String.length_append, String.length_append,
        String.length_append] at hlen
      have e1 : ("Interpreted \"" : String).length = 13 := rfl
      have e2 : ("\" as \"" : String).length = 6 := rfl
      have e3 : ("\"" : String).length = 1 := rfl
      have e4 : ("" : String).length = 0 := rfl
      rw [e1, e2, e3, e4] at hlen
      omega
    have hne2 : (("Interpreted \"" ++ crop ++ "\" as \"" ++ c ++ "\"") == "") = false :=
      beq_eq_false_iff_ne.mpr hne
    rw [hw, hwarn]
    cases hdw : (validateDisease c disease).warning with
    | none => simp [List.filterMap, List.filter, bne, hne2]
    | some x => simp [List.filterMap, List.filter, bne, hne2]
  · intro crop disease c d w h x hx
    obtain ⟨hcv, hsc, _, _, hw⟩ := validate_success_inv h
    rw [hw] at hx
    have hx2 : x ∈ ([(validateCrop crop).warning,
        (validateDisease c disease).warning]).filterMap id :=
      List.mem_of_mem_filter hx
    have hdcases := validateDisease_warning_cases
      (rfl : validateDisease c disease = validateDisease c disease)
    cases hcw : (validateCrop crop).warning with
    | none =>
        rcases hdcases with hdw | hdw
        · rw [hcw, hdw] at hx2
          simp [List.filterMap] at hx2
        · rw [hcw, hdw] at hx2
          simp [List.filterMap] at hx2
          exact Or.inr hx2
    | some a =>
        rcases hdcases with hdw | hdw
        · rw [hcw, hdw] at hx2
          simp [List.filterMap] at hx2
          exact Or.inl (by rw [hx2])
        · rw [hcw, hdw] at hx2
          simp [List.filterMap] at hx2
          rcases hx2 with hx2 | hx2
          · exact Or.inl (by rw [hx2])
          · exact Or.inr hx2
  · intro crop disease c d w m h hcontains hm
    obtain ⟨hcv, hsc, _, _, hw⟩ := validate_success_inv h
    have hcw : (validateCrop crop).warning = none := by
      rw [validateCrop_exact hcontains]
    have hdw : (validateDisease c disease).warning = none :=
      suggestedDisease_warning_none
        (rfl : validateDisease c disease = validateDisease c disease) hm
    rw [hw, hcw, hdw]
    rfl

/-- Witness for C2: a non-exact crop match whose interpretation appears in
the success warnings, and a crop-exact, disease-fuzzy success whose
warnings array is empty. -/
theorem c2_witness :
    (("Interpreted \"" ++ "tomatoe" ++ "\" as \"" ++ "tomato" ++ "\"") ∈
      ["Interpreted \"tomatoe\" as \"tomato\""]) ∧
    ([] : List String) = [] :=
  ⟨c2_claim.1 "tomatoe" "early blight" "tomato" "early blight"
      ["Interpreted \"tomatoe\" as \"tomato\""] (by decide) (by decide),
    c2_claim.2.2.1 "tomato" "early blight disease" "tomato" "early blight" [] "early blight"
      (by decide) (by decide) (by decide)⟩

/-- Counterexample to C2 as stated: validating crop tomato with disease
early blight disease succeeds through a non-exact (substring) disease match
whose canonical interpretation is early blight, yet the success warnings
array is empty: the disease interpretation is not recorded there. -/
theorem c2_counterexample :
    validateCropAndDisease "tomato" "early blight disease" =
      ValidationOutcome.success "tomato" "early blight" [] ∧
    (validateDisease "tomato" "early blight disease").suggestedDisease = some "early blight" ∧
    ("early blight disease" : String) ≠ "early blight" := ⟨by decide, by decide, by decide⟩

/-- C3, corrected reading: an out-of-range confidence never reaches the AI
collaborator (generateCropAdvice is not invoked), and the boundary values 0
and 1 are accepted; but the rejection happens only after crop and disease
matching, because the handler runs validateCropAndDisease before the
confidence range check. -/
theorem c3_claim :
    (∀ (crop disease : Option String) (q : ℚ) (sev lang : Option String),
      q < 0 ∨ 1 < q →
      (postCropAdvice crop disease (some q) sev lang).adviceCalled = false) ∧
    (postCropAdvice (some "tomato") (some "early blight") (some 0) none none).result =
      HandlerResult.adviceOk "tomato" "early blight" "unknown" 0 "en" [] ∧
    (postCropAdvice (some "tomato") (some "early blight") (some 1) none none).result =
      HandlerResult.adviceOk "tomato" "early blight" "unknown" 1 "en" [] := by
  refine ⟨?_, by decide, by decide⟩
  intro crop disease q sev lang hq
  rw [postCropAdvice]
  split
  · rfl
  · split
    · split
      · rfl
      · rename_i hconf
        exfalso
        apply hconf
        simp only [confOutOfRange, Bool.or_eq_true, decide_eq_true_eq]
        rcases hq with hq | hq
        · exact Or.inl hq
        · exact Or.inr hq
    · rfl

/-- Witness for C3: a confidence of 2 never reaches the AI collaborator. -/
theorem c3_witness :
    (postCropAdvice (some "tomato") (some "early blight") (some 2) none none).adviceCalled =
      false :=
  c3_claim.1 (some "tomato") (some "early blight") 2 none none (Or.inr (by norm_num))

/-- Counterexample to C3 as stated: with a valid crop and disease and
confidence 101/100 the request is rejected with the confidence error, yet
crop and disease matching has already run, contradicting the claim that no
matching occurs for such a request. -/
theorem c3_counterexample :
    (postCropAdvice (some "tomato") (some "early blight") (some (mkRat 101 100)) none none).result =
      HandlerResult.confidenceError ∧
    (postCropAdvice (some "tomato") (some "early blight") (some (mkRat 101 100)) none none).matchingRan =
      true := ⟨by decide, by decide⟩

theorem batchLoop_firstBad {e : BatchEntry} (he : entryBad e = true) :
    ∀ (pre : List BatchEntry) (post : List BatchEntry) (k : Nat),
      (∀ x ∈ pre, entryBad x = false) →
      batchErrorIndex (batchLoop k (pre ++ e :: post)) = some (k + pre.length) ∧
      batchAdviceCalls (batchLoop k (pre ++ e :: post)) = []
  | [], post, k => by
      intro _
      rw [List.nil_append, batchLoop]
      cases hf : falsyStr e.crop || falsyStr e.disease with
      | true => simp [batchErrorIndex, batchAdviceCalls]
      | false =>
          rw [entryBad, hf] at he
          simp only [Bool.false_or] at he
          cases hv : validateCropAndDisease (e.crop.getD "") (e.disease.getD "") with
          | success c d w => rw [hv] at he; simp at he
          | cropFailure a b c d => simp [batchErrorIndex, batchAdviceCalls]
          | diseaseFailure a b c d => simp [batchErrorIndex, batchAdviceCalls]
  | a :: pre, post, k => by
      intro hgood
      have ha : entryBad a = false := hgood a (by simp)
      have ih := batchLoop_firstBad he pre post (k + 1) (fun x hx => hgood x (by simp [hx]))
      have hf : (falsyStr a.crop || falsyStr a.disease) = false := by
        rw [entryBad] at ha
        cases hff : falsyStr a.crop || falsyStr a.disease with
        | true => rw [hff] at ha; simp at ha
        | false => rfl
      obtain ⟨c, d, w, hv⟩ : ∃ c d w,
          validateCropAndDisease (a.crop.getD "") (a.disease.getD "") =
            ValidationOutcome.success c d w := by
        rw [entryBad, hf] at ha
        simp only [Bool.false_or] at ha
        cases hvv : validateCropAndDisease (a.crop.getD "") (a.disease.getD "") with
        | success c d w => exact ⟨c, d, w, rfl⟩
        | cropFailure x b cc dd => rw [hvv] at ha; simp at ha
        | diseaseFailure x b cc dd => rw [hvv] at ha; simp at ha
      have hstep : batchLoop k ((a :: pre) ++ e :: post) =
          match batchLoop (k + 1) (pre ++ e :: post) with
          | BatchResult.ok tail =>
              BatchResult.ok
                ({ crop := c, disease := d, severity := jsOrStr a.severity "unknown",
                   confidence := jsOrZero a.confidence, warnings := w } :: tail)
          | other => other := by
        rw [List.cons_append, batchLoop, hf]
        simp only [Bool.false_eq_true, if_false]
        rw [hv]
      obtain ⟨ih1, ih2⟩ := ih
      rw [hstep]
      cases hres : batchLoop (k + 1) (pre ++ e :: post) with
      | ok tail =>
          rw [hres] at ih1
          simp [batchErrorIndex] at ih1
      | badArray =>
          rw [hres] at ih1
          simp [batchErrorIndex] at ih1
      | missingFields i err =>
          rw [hres] at ih1
          simp only [batchErrorIndex, Option.some.injEq] at ih1
          refine ⟨?_, rfl⟩
          show some i = some (k + (a :: pre).length)
          simp only [List.length_cons, Option.some.injEq]
          omega
      | invalidEntry i v =>
          rw [hres] at ih1
          simp only [batchErrorIndex, Option.some.injEq] at ih1
          refine ⟨?_, rfl⟩
          show some i = some (k + (a :: pre).length)
          simp only [List.length_cons, Option.some.injEq]
          omega

theorem batchLoop_ok_allGood :
    ∀ (l : List BatchEntry) (k : Nat) (r : List ValidatedEntry),
      batchLoop k l = BatchResult.ok r → ∀ x ∈ l, entryBad x = false
  | [], _, _ => by intro _ x hx; simp at hx
  | a :: t, k, r => by
      intro h x hx
      rw [batchLoop] at h
      cases hf : falsyStr a.crop || falsyStr a.disease with
      | true => rw [hf] at h; simp at h
      | false =>
          rw [hf] at h
          simp only [Bool.false_eq_true, if_false] at h
          cases hv : validateCropAndDisease (a.crop.getD "") (a.disease.getD "") with
          | cropFailure e m s c => rw [hv] at h; simp at h
          | diseaseFailure e m s c => rw [hv] at h; simp at h
          | success c d w =>
              rw [hv] at h
              cases hres : batchLoop (k + 1) t with
              | ok tail =>
                  rcases List.mem_cons.mp hx with hx1 | hx1
                  · rw [hx1, entryBad, hf, hv]
                    simp
                  · exact batchLoop_ok_allGood t (k + 1) tail hres x hx1
              | badArray => rw [hres] at h; simp at h
              | missingFields i err => rw [hres] at h; simp at h
              | invalidEntry i v => rw [hres] at h; simp at h

/-- C4: the batch handler validates every tuple before any AI call is
issued; on the first invalid tuple it aborts with the zero-based index of
that tuple in the index field and performs zero generateCropAdvice calls; and a
batch that reaches the AI stage consists exclusively of valid tuples.
Concretely, with three tuples whose second is invalid the reported index is
1 and the AI call list is empty. -/
theorem c4_claim :
    (∀ (pre post : List BatchEntry) (e : BatchEntry),
      (∀ x ∈ pre, entryBad x = false) → entryBad e = true →
      batchErrorIndex (postBatchAdvice (some (pre ++ e :: post))) = some pre.length ∧
      batchAdviceCalls (postBatchAdvice (some (pre ++ e :: post))) = []) ∧
    (∀ (l : List BatchEntry) (r : List ValidatedEntry),
      postBatchAdvice (some l) = BatchResult.ok r → ∀ x ∈ l, entryBad x = false) ∧
    batchErrorIndex (postBatchAdvice (some
      [⟨some "tomato", some "early blight", none, none⟩,
       ⟨some "xyz123", some "anything", none, none⟩,
       ⟨some "potato", some "late blight", none, none⟩])) = some 1 ∧
    batchAdviceCalls (postBatchAdvice (some
      [⟨some "tomato", some "early blight", none, none⟩,
       ⟨some "xyz123", some "anything", none, none⟩,
       ⟨some "potato", some "late blight", none, none⟩])) = [] := by
  refine ⟨?_, ?_, by decide, by decide⟩
  · intro pre post e hgood he
    have hmain := batchLoop_firstBad he pre post 0 hgood
    have hpb : postBatchAdvice (some (pre ++ e :: post)) = batchLoop 0 (pre ++ e :: post) := by
      cases hl : pre ++ e :: post with
      | nil => exact absurd hl (by simp)
      | cons a t => rfl
    rw [hpb]
    simpa using hmain
  · intro l r h x hx
    cases l with
    | nil => simp at hx
    | cons a t =>
        have hpb : postBatchAdvice (some (a :: t)) = batchLoop 0 (a :: t) := rfl
        rw [hpb] at h
        exact batchLoop_ok_allGood (a :: t) 0 r h x hx

/-- Witness for C4: the three-tuple batch with an invalid second tuple. -/
theorem c4_witness :
    batchErrorIndex (postBatchAdvice (some
      ([⟨some "tomato", some "early blight", none, none⟩] ++
        (⟨some "xyz123", some "anything", none, none⟩ : BatchEntry) ::
        [⟨some "potato", some "late blight", none, none⟩]))) =
      some (List.length ([⟨some "tomato", some "early blight", none, none⟩] : List BatchEntry)) ∧
    batchAdviceCalls (postBatchAdvice (some
      ([⟨some "tomato", some "early blight", none, none⟩] ++
        (⟨some "xyz123", some "anything", none, none⟩ : BatchEntry) ::
        [⟨some "potato", some "late blight", none, none⟩]))) = [] :=
  c4_claim.1 [⟨some "tomato", some "early blight", none, none⟩]
    [⟨some "potato", some "late blight", none, none⟩]
    ⟨some "xyz123", some "anything", none, none⟩
    (by decide) (by decide)

theorem extract_absent {label : String} {next : Option String} {text : String}
    (h : labelOccursCI label text = false) (d : String) :
    (extractSection label next text).getD d = d := by
  rw [extractSection, occursCI_false_scan h]
  rfl

/-- C5: the parser is total (the extraction never raises, the JS try/catch
being dead code), every field whose label does not occur in
the text, case-insensitively, is filled with its fixed per-field default,
the empty input yields exactly the record of the six defaults, and the six
default texts are pairwise distinct. -/
theorem c5_claim :
    (∀ text : String,
      (labelOccursCI "CAUSE:" text = false →
        (parseAdviceResponse text).cause = "Unable to determine cause") ∧
      (labelOccursCI "SYMPTOMS:" text = false →
        (parseAdviceResponse text).symptoms = "Unable to determine symptoms") ∧
      (labelOccursCI "IMMEDIATE:" text = false →
        (parseAdviceResponse text).immediate = "Consult agricultural expert") ∧
      (labelOccursCI "CHEMICAL:" text = false →
        (parseAdviceResponse text).chemical = "Consult local agriculture office") ∧
      (labelOccursCI "ORGANIC:" text = false →
        (parseAdviceResponse text).organic = "Neem oil spray recommended") ∧
      (labelOccursCI "PREVENTION:" text = false →
        (parseAdviceResponse text).prevention = "Maintain proper plant hygiene")) ∧
    parseAdviceResponse "" = defaultAdvice ∧
    [defaultAdvice.cause, defaultAdvice.symptoms, defaultAdvice.immediate,
     defaultAdvice.chemical, defaultAdvice.organic, defaultAdvice.prevention].Nodup := by
  refine ⟨?_, by decide, by decide⟩
  intro text
  exact ⟨fun h => extract_absent h _, fun h => extract_absent h _,
    fun h => extract_absent h _, fun h => extract_absent h _,
    fun h => extract_absent h _, fun h => extract_absent h _⟩

/-- Witness for C5: a text without any section label parses to the cause
default. -/
theorem c5_witness :
    (parseAdviceResponse "hello world").cause = "Unable to determine cause" :=
  ((c5_claim.1 "hello world").1) (by decide)

/-- C6, corrected reading: the regex first swallows the maximal whitespace
run after the label, which can cross a blank line or run into the next
label; whenever that whitespace is boundary-free (no blank line inside it,
a nonempty body follows, and the body does not itself begin with the next
label) the extracted value is exactly the claimed run from right after the
label to the first blank line, next label, or end of text, trimmed. -/
theorem c6_claim :
    ∀ text : String,
      (sectionGuard "CAUSE:" (some "SYMPTOMS:") text = true →
        (parseAdviceResponse text).cause =
          (claimExtract "CAUSE:" (some "SYMPTOMS:") text).getD "Unable to determine cause") ∧
      (sectionGuard "SYMPTOMS:" (some "IMMEDIATE:") text = true →
        (parseAdviceResponse text).symptoms =
          (claimExtract "SYMPTOMS:" (some "IMMEDIATE:") text).getD "Unable to determine symptoms") ∧
      (sectionGuard "IMMEDIATE:" (some "CHEMICAL:") text = true →
        (parseAdviceResponse text).immediate =
          (claimExtract "IMMEDIATE:" (some "CHEMICAL:") text).getD "Consult agricultural expert") ∧
      (sectionGuard "CHEMICAL:" (some "ORGANIC:") text = true →
        (parseAdviceResponse text).chemical =
          (claimExtract "CHEMICAL:" (some "ORGANIC:") text).getD "Consult local agriculture office") ∧
      (sectionGuard "ORGANIC:" (some "PREVENTION:") text = true →
        (parseAdviceResponse text).organic =
          (claimExtract "ORGANIC:" (some "PREVENTION:") text).getD "Neem oil spray recommended") ∧
      (sectionGuard "PREVENTION:" none text = true →
        (parseAdviceResponse text).prevention =
          (claimExtract "PREVENTION:" none text).getD "Maintain proper plant hygiene") := by
  intro text
  refine ⟨fun hg => ?_, fun hg => ?_, fun hg => ?_, fun hg => ?_, fun hg => ?_, fun hg => ?_⟩
  · show (extractSection "CAUSE:" (some "SYMPTOMS:") text).getD _ = _
    rw [extractSection_eq_claimExtract (by decide) text hg]
  · show (extractSection "SYMPTOMS:" (some "IMMEDIATE:") text).getD _ = _
    rw [extractSection_eq_claimExtract (by decide) text hg]
  · show (extractSection "IMMEDIATE:" (some "CHEMICAL:") text).getD _ = _
    rw [extractSection_eq_claimExtract (by decide) text hg]
  · show (extractSection "CHEMICAL:" (some "ORGANIC:") text).getD _ = _
    rw [extractSection_eq_claimExtract (by decide) text hg]
  · show (extractSection "ORGANIC:" (some "PREVENTION:") text).getD _ = _
    rw [extractSection_eq_claimExtract (by decide) text hg]
  · show (extractSection "PREVENTION:" none text).getD _ = _
    rw [extractSection_eq_claimExtract (by decide) text hg]

/-- Witness for C6: on a well-formed response the parsed cause equals the
claimed run. -/
theorem c6_witness :
    (parseAdviceResponse "CAUSE: fungal spores\n\nSYMPTOMS: dark spots\n\nIMMEDIATE: prune\n\nCHEMICAL: mancozeb\n\nORGANIC: neem oil\n\nPREVENTION: rotate crops").cause =
      (claimExtract "CAUSE:" (some "SYMPTOMS:")
        "CAUSE: fungal spores\n\nSYMPTOMS: dark spots\n\nIMMEDIATE: prune\n\nCHEMICAL: mancozeb\n\nORGANIC: neem oil\n\nPREVENTION: rotate crops").getD
        "Unable to determine cause" :=
  (c6_claim "CAUSE: fungal spores\n\nSYMPTOMS: dark spots\n\nIMMEDIATE: prune\n\nCHEMICAL: mancozeb\n\nORGANIC: neem oil\n\nPREVENTION: rotate crops").1
    (by decide)

/-- Counterexample to C6 as stated: in the text CAUSE:(newline)SYMPTOMS:
leaf spots, the run right after the CAUSE: label up to the next label is a
single newline, so the claimed extraction yields the empty string, but the
parser extracts SYMPTOMS: leaf spots, because the greedy whitespace run
swallows the newline and the capture must then be nonempty. -/
theorem c6_counterexample :
    (parseAdviceResponse "CAUSE:\nSYMPTOMS: leaf spots").cause = "SYMPTOMS: leaf spots" ∧
    claimExtract "CAUSE:" (some "SYMPTOMS:") "CAUSE:\nSYMPTOMS: leaf spots" = some "" ∧
    ("SYMPTOMS: leaf spots" : String) ≠ "" := ⟨by decide, by decide, by decide⟩

/-- C7: when the normalized input is not an exact vocabulary crop but is
substring-related to at least one CropEntry, validateCrop accepts the first
related entry in vocabulary order (no earlier entry is related) and emits
the warning Interpreted raw as matched; concretely tomatoe resolves to
tomato with that warning. -/
theorem c7_claim :
    (∀ s : String,
      VALID_CROPS.contains (normalizeInput s) = false →
      (∃ vc ∈ VALID_CROPS, cropRelated (normalizeInput s) vc = true) →
      ∃ m l₁ l₂,
        validateCrop s =
          { isValid := true, suggestedCrop := some m,
            warning := some ("Interpreted \"" ++ s ++ "\" as \"" ++ m ++ "\""),
            suggestions := none } ∧
        VALID_CROPS = l₁ ++ m :: l₂ ∧
        cropRelated (normalizeInput s) m = true ∧
        ∀ x ∈ l₁, cropRelated (normalizeInput s) x = false) ∧
    validateCrop "tomatoe" =
      { isValid := true, suggestedCrop := some "tomato",
        warning := some ("Interpreted \"tomatoe\" as \"tomato\""), suggestions := none } := by
  constructor
  · intro s hc hex
    obtain ⟨m, hf⟩ := find?_of_any _ VALID_CROPS hex
    obtain ⟨l₁, l₂, hsplit, hall⟩ := find?_split _ VALID_CROPS m hf
    refine ⟨m, l₁, l₂, ?_, hsplit, List.find?_some hf, hall⟩
    rw [validateCrop]
    simp only [hc, Bool.false_eq_true, if_false, hf]
  · decide

/-- Witness for C7: the typo tomatoe. -/
theorem c7_witness :
    ∃ m l₁ l₂,
      validateCrop "tomatoe" =
        { isValid := true, suggestedCrop := some m,
          warning := some ("Interpreted \"" ++ "tomatoe" ++ "\" as \"" ++ m ++ "\""),
          suggestions := none } ∧
      VALID_CROPS = l₁ ++ m :: l₂ ∧
      cropRelated (normalizeInput "tomatoe") m = true ∧
      ∀ x ∈ l₁, cropRelated (normalizeInput "tomatoe") x = false :=
  c7_claim.1 "tomatoe" (by decide) ⟨"tomato", by decide, by decide⟩

/-- C8: every vocabulary crop matches itself exactly, with no warning and
no suggestions. -/
theorem c8_claim :
    ∀ c ∈ VALID_CROPS, validateCrop c =
      { isValid := true, suggestedCrop := some c, warning := none, suggestions := none } := by
  decide

/-- Witness for C8 at the vocabulary entry tomato. -/
theorem c8_witness :
    validateCrop "tomato" =
      { isValid := true, suggestedCrop := some "tomato", warning := none,
        suggestions := none } :=
  c8_claim "tomato" (by decide)

/-- C9: a disease-stage failure always carries the already-resolved crop
(the crop stage succeeded and its suggestedCrop is the carried crop, and
the disease stage failed for it); a crop-stage failure implies the crop
stage failed, its payload is structurally free of disease-stage fields (the
cropFailure constructor carries none), and the whole result is independent
of the disease argument, so disease matching is never reached; concretely
xyz123 with any disease fails at the crop stage. -/
theorem c9_claim :
    (∀ crop disease e : String, ∀ m : Option String, ∀ s : Option (List String), ∀ c : String,
      validateCropAndDisease crop disease = ValidationOutcome.diseaseFailure e m s c →
      (validateCrop crop).isValid = true ∧
      (validateCrop crop).suggestedCrop = some c ∧
      (validateDisease c disease).isValid = false) ∧
    (∀ crop d₁ d₂ e : String, ∀ m : String, ∀ s : Option (List String), ∀ vc : List String,
      validateCropAndDisease crop d₁ = ValidationOutcome.cropFailure e m s vc →
      (validateCrop crop).isValid = false ∧
      validateCropAndDisease crop d₂ = ValidationOutcome.cropFailure e m s vc) ∧
    validateCropAndDisease "xyz123" "anything" =
      ValidationOutcome.cropFailure "Invalid crop name: \"xyz123\""
        "Please provide a valid crop name." none (VALID_CROPS.take 20) := by
  refine ⟨?_, ?_, by decide⟩
  · intro crop disease e m s c h
    rw [validateCropAndDisease] at h
    split at h
    · simp at h
    · rename_i hvalid
      have hcv : (validateCrop crop).isValid = true := by simpa using hvalid
      obtain ⟨cv, hcv2⟩ := validateCrop_valid_suggested rfl hcv
      rw [hcv2] at h
      simp only [Option.getD_some] at h
      split at h
      · rename_i hdv
        injection h with h1 h2 h3 h4
        subst h4
        refine ⟨hcv, hcv2, by simpa using hdv⟩
      · simp at h
  · intro crop d₁ d₂ e m s vc h
    rw [validateCropAndDisease] at h
    split at h
    · rename_i hcv
      have hcv' : (validateCrop crop).isValid = false := by simpa using hcv
      refine ⟨hcv', ?_⟩
      rw [validateCropAndDisease, if_pos hcv]
      exact h
    · rename_i hvalid
      have hcv : (validateCrop crop).isValid = true := by simpa using hvalid
      obtain ⟨cv, hcv2⟩ := validateCrop_valid_suggested rfl hcv
      rw [hcv2] at h
      simp only [Option.getD_some] at h
      split at h
      · simp at h
      · simp at h

/-- Witness for C9: the crop-stage failure of xyz123 is independent of the
disease argument. -/
theorem c9_witness :
    (validateCrop "xyz123").isValid = false ∧
    validateCropAndDisease "xyz123" "whatever" =
      ValidationOutcome.cropFailure "Invalid crop name: \"xyz123\""
        "Please provide a valid crop name." none (VALID_CROPS.take 20) :=
  c9_claim.2.1 "xyz123" "anything" "whatever" "Invalid crop name: \"xyz123\""
    "Please provide a valid crop name." none (VALID_CROPS.take 20) (by decide)

/-- C10: any input whose normalized form is empty (empty or
whitespace-only) is accepted by validateCrop: the empty string is a
substring of every CropEntry, so the substring rule fires on the first
vocabulary entry tomato, with an interpretation warning and no invalid
report. -/
theorem c10_claim :
    ∀ s : String, normalizeInput s = "" →
      validateCrop s =
        { isValid := true, suggestedCrop := some "tomato",
          warning := some ("Interpreted \"" ++ s ++ "\" as \"" ++ "tomato" ++ "\""),
          suggestions := none } := by
  intro s h
  rw [validateCrop, h]
  have hc : VALID_CROPS.contains "" = false := by decide
  have hf : VALID_CROPS.find? (fun vc => cropRelated "" vc) = some "tomato" := by decide
  simp only [hc, Bool.false_eq_true, if_false, hf]

/-- Witness for C10: whitespace-only input. -/
theorem c10_witness :
    validateCrop "   " =
      { isValid := true, suggestedCrop := some "tomato",
        warning := some ("Interpreted \"" ++ "   " ++ "\" as \"" ++ "tomato" ++ "\""),
        suggestions := none } :=
  c10_claim "   " (by decide)
